import Mathlib

/-!
Verification development for the node-emberplus tree server
(`src/server.js`) and its per-client S101 connection layer
(`src/client.js`, provided unnamed).

The JavaScript code is shallowly embedded: every handler of
`TreeServer.prototype` becomes a pure Lean function from an explicit
server state to a result record collecting the mutated state, the
events emitted, the messages sent directly to the requesting client,
the messages queued to subscribers, and any JavaScript exception that
escaped the handler.  The ember/BER tree library (`ember.js`) is not
part of the sources; the handful of its operations the server calls
(`getElementByPath`, `getPath`, `setSources`, `connectSources`,
`disconnectSources`, `toQualified`, `getTreeBranch`, command
constants) are modelled from the specification and are marked
`Modelled from the spec:` in their doc comments.
-/

namespace EmberServer

/-- JavaScript values carried as parameter values in the embedding. -/
inductive JSValue where
  | vint (n : Int)
  | vstr (s : String)
  | vbool (b : Bool)
deriving Repr, DecidableEq

/-- Modelled from the spec: `MatrixOperation ∈ {absolute, connect, disconnect}`
(§6), an enumeration provided by the missing ember library. -/
inductive MatrixOperation where
  | absolute
  | connect
  | disconnect
deriving Repr, DecidableEq

/-- Modelled from the spec: `MatrixDisposition ∈ {..., modified}` (§6); only
`modified` is used by the server. -/
inductive MatrixDisposition where
  | modified
deriving Repr, DecidableEq

/-- A matrix crosspoint connection object (`ember.MatrixConnection`): a target
index, an optional list of source indices and an optional operation.  Decoded
request connections and the tree's own connection slots share this shape, as
they do in the duck-typed JavaScript. -/
structure MatrixConnection where
  target : Nat
  sources : Option (List Nat) := none
  operation : Option MatrixOperation := none
deriving Repr, DecidableEq

/-- Contents of a tree element.  JavaScript contents objects are duck-typed
records; the fields the server reads are modelled directly, and `extra` models
additional dynamic keys that `JSONtoTree` copies onto contents objects and that
`setValue` can address through its `key` argument. -/
structure Contents where
  value : Option JSValue := none
  access : Option Nat := none
  streamIdentifier : Option Nat := none
  targetCount : Option Nat := none
  extra : List (String × JSValue) := []
deriving Repr, DecidableEq

/-- Does a contents object own the given dynamic key
(`contents.hasOwnProperty(key)` for the keys held in `extra`)? -/
def Contents.hasKey (c : Contents) (k : String) : Bool :=
  (c.extra.find? (fun p => p.fst == k)).isSome

/-- Replace the value stored under a dynamic contents key. -/
def Contents.setKey (c : Contents) (k : String) (v : JSValue) : Contents :=
  { c with extra := c.extra.map (fun p => if p.fst == k then (k, v) else p) }

/-- The constructor class of a tree element: `ember.Node`, `ember.Parameter`,
`ember.MatrixNode` (or their qualified variants), or `ember.Command`. -/
inductive EKind where
  | node
  | parameter
  | matrix
  | command
deriving Repr, DecidableEq

/-- A tree or request element.  `number` is the local child number (absent on
malformed requests), `path` is the JavaScript `path` own-property carried by
qualified elements, `contents`, `connections` and `children` may each be
absent exactly as in JavaScript, and `derivedPath` models the result of the
ember library's `getPath()`: the number path derived from the parent chain
(spec §3), carried as a field because the embedding detaches elements from
the arena of parent pointers. -/
inductive Element where
  | mk (number : Option Nat) (kind : EKind) (path : Option (List Nat))
      (contents : Option Contents)
      (connections : Option (List (Nat × MatrixConnection)))
      (children : Option (List Element))
      (derivedPath : List Nat)

def Element.number : Element → Option Nat
  | .mk n _ _ _ _ _ _ => n

def Element.kind : Element → EKind
  | .mk _ k _ _ _ _ _ => k

def Element.path : Element → Option (List Nat)
  | .mk _ _ p _ _ _ _ => p

def Element.contents : Element → Option Contents
  | .mk _ _ _ c _ _ _ => c

def Element.connections : Element → Option (List (Nat × MatrixConnection))
  | .mk _ _ _ _ cn _ _ => cn

def Element.children : Element → Option (List Element)
  | .mk _ _ _ _ _ ch _ => ch

/-- Modelled from the spec: `element.get_path() → string`, the dot-joined
number path derived from the parent chain (§3, §6). -/
def Element.getPath : Element → List Nat
  | .mk _ _ _ _ _ _ dp => dp

def Element.withContents : Element → Option Contents → Element
  | .mk n k p _ cn ch dp, c => .mk n k p c cn ch dp

def Element.withConnections : Element → Option (List (Nat × MatrixConnection)) → Element
  | .mk n k p c _ ch dp, cn => .mk n k p c cn ch dp

def Element.withChildren : Element → Option (List Element) → Element
  | .mk n k p c cn _ dp, ch => .mk n k p c cn ch dp

/-- The ember library's `isParameter()` test (`instanceof Parameter`). -/
def Element.isParameter (e : Element) : Bool :=
  match e.kind with
  | .parameter => true
  | _ => false

/-- The ember library's `isMatrix()` test (`instanceof MatrixNode`). -/
def Element.isMatrix (e : Element) : Bool :=
  match e.kind with
  | .matrix => true
  | _ => false

/-- Modelled from the spec: `is_stream()` — §3 gives the optional
`streamIdentifier` to Parameter elements only, so an element is a stream
exactly when it is a parameter whose contents carry a streamIdentifier. -/
def Element.isStream (e : Element) : Bool :=
  match e.kind, e.contents with
  | .parameter, some c => c.streamIdentifier.isSome
  | _, _ => false

/-- The ember library's `isQualified()` test: qualified elements are those
carrying a `path` own-property (spec glossary: a qualified element is
referenced by absolute path). -/
def Element.isQualified (e : Element) : Bool :=
  e.path.isSome

/-- The ember library's `getChildren()`: the children array, or null when the
element has none (`none` models null). -/
def Element.getChildren (e : Element) : Option (List Element) :=
  e.children

/-- Association-list lookup, modelling indexing a JavaScript object keyed by
integers (`matrix.connections[target]`) or by path strings
(`this.subscribers[path]`); `none` models `undefined`. -/
def lookupAssoc {κ α : Type} [DecidableEq κ] : List (κ × α) → κ → Option α
  | [], _ => none
  | (k, v) :: rest, t => if k = t then some v else lookupAssoc rest t

/-- Association-list update, modelling assignment to a JavaScript object key:
an existing key keeps its position and gets the new value, a fresh key is
appended. -/
def setAssoc {κ α : Type} [DecidableEq κ] : List (κ × α) → κ → α → List (κ × α)
  | [], k, v => [(k, v)]
  | (k0, v0) :: rest, k, v =>
      if k0 = k then (k, v) :: rest else (k0, v0) :: setAssoc rest k v

/-- Modelled from the spec: the ember library's tree walker
`get_element_by_path` (§6) descends the children lists matching each number
of the path in turn. -/
def findByNumber (es : List Element) (n : Nat) : Option Element :=
  es.find? (fun e => e.number == some n)

/-- Modelled from the spec: descend from an element along the remaining
number path. -/
def descendPath : List Nat → Element → Option Element
  | [], e => some e
  | n :: rest, e =>
      match (findByNumber (e.children.getD []) n) with
      | none => none
      | some c => descendPath rest c

/-- Modelled from the spec: `tree.getElementByPath(path)` resolves a dot
path against the tree root (whose `children` hold the top-level elements). -/
def getElementByPath (root : Element) (path : List Nat) : Option Element :=
  match path with
  | [] => none
  | n :: rest =>
      match findByNumber (root.children.getD []) n with
      | none => none
      | some c => descendPath rest c

/-- Write back a mutated element at its path.  JavaScript mutates tree nodes
in place through aliasing; the embedding is persistent, so the handlers
re-insert the updated element at its `getPath()`. -/
def updateChildren : List Nat → Option (List Element) → Element → Option (List Element)
  | _, none, _ => none
  | [], some es, _ => some es
  | [n], some es, e2 =>
      some (es.map (fun e => if e.number == some n then e2 else e))
  | n :: rest, some es, e2 =>
      some (es.map (fun e =>
        if e.number == some n then e.withChildren (updateChildren rest e.children e2) else e))

/-- Write back a mutated element located at `path` below the tree root. -/
def updateElement (root : Element) (path : List Nat) (e2 : Element) : Element :=
  root.withChildren (updateChildren path root.children e2)

/-- Error payloads.  Each constructor corresponds to one throw or
`emit("error", ...)` site of `server.js`; the source strings are kept apart
by constructor so the artifacts stay distinguishable (the source really does
emit an `Error` object in `handleRoot` and a bare string in `handleNode`). -/
inductive ErrMsg where
  /-- `new Error("invalid request")` in `handleRoot` (line 96). -/
  | invalidRequest
  /-- the bare string `"invalid request"` emitted in `handleNode` (line 157). -/
  | invalidRequestStr
  /-- `new Error("unknown element at path ...")` (lines 131, 181). -/
  | unknownElement (path : List Nat)
  /-- `new Error("invalid request format")` in `handleNode` (line 200). -/
  | invalidRequestFormat
  /-- `new Error("invalid command ...")` in `handleCommand` (line 340). -/
  | invalidCommand (n : Option Nat)
  /-- a TypeError raised by reading a property of `undefined`. -/
  | typeErrorUndefined
  /-- `matrix not found with path ...` thrown by `validateMatrixOperation`. -/
  | matrixNotFound
  /-- `invalid matrix ... : no contents` thrown by `validateMatrixOperation`. -/
  | matrixNoContents
  /-- `invalid matrix ... : no targetCount` thrown by `validateMatrixOperation`. -/
  | matrixNoTargetCount
  /-- `target id ... out of range` thrown by `validateMatrixOperation`. -/
  | targetOutOfRange (target : Int)
  /-- `invalid sources format` thrown by `validateMatrixOperation`. -/
  | invalidSourcesFormat
deriving Repr, DecidableEq

/-- The emit type chosen per matrix connection
(`matrix-change` / `matrix-connect` / `matrix-disconnect`). -/
inductive MatrixEvType where
  | change
  | connect
  | disconnect
deriving Repr, DecidableEq

/-- Events emitted on the server's event emitter during a handler run. -/
inductive Event where
  /-- `emit("error", e)`. -/
  | errorEv (e : ErrMsg)
  /-- `emit("value-change", element, previousValue)`; the matrix-contents
  branch of `setValue` passes no previous value (`none`). -/
  | valueChange (el : Element) (previous : Option JSValue)
  /-- `emit(emitType, {target, sources, client})` in
  `handleMatrixConnections`. -/
  | matrixEv (typ : MatrixEvType) (target : Nat) (sources : Option (List Nat))
      (client : Option Nat)

/-- An entry of the response root's `connections` object built by
`handleMatrixConnections`: a fresh `MatrixConnection(target)` later given
`sources` plus either a `disposition` (client path) or an `operation`
(server API path). -/
structure ConResult where
  target : Nat
  sources : Option (List Nat) := none
  disposition : Option MatrixDisposition := none
  operation : Option MatrixOperation := none
deriving Repr, DecidableEq

/-- Messages the server encodes and sends (`sendBERNode` /
`queueMessage`).  The tree-shaping helpers of the ember library
(`toQualified`, `getTreeBranch`, `getDuplicate`, `getMinimal`) are not in the
sources; each response form is modelled from the spec (§4.4 response
shaping) as a constructor carrying the data the code puts into it. -/
inductive Response where
  /-- Modelled from the spec: `getQualifiedResponse(element)` — a root whose
  single element is the target as a qualified element with duplicated
  children (§4.4 form (b)). -/
  | qualifiedRes (e : Element)
  /-- Modelled from the spec: `getResponse(element)` / `getTreeBranch` — the
  path reconstructed as nested single-child elements from root to the target
  (§4.4 form (a)). -/
  | branchRes (path : List Nat) (e : Element)
  /-- Modelled from the spec: `this.tree._root.getMinimal()`, the minimal
  form of the tree root sent by `handleError`. -/
  | minimalRoot
  /-- The root built for a qualified matrix: a `QualifiedMatrix(matrix.path)`
  carrying the result connections. -/
  | matrixQualified (path : Option (List Nat)) (conns : List (Nat × ConResult))
  /-- The root built for an in-tree matrix:
  `matrix._parent.getTreeBranch(res)` — the branch down to the parent wraps a
  `MatrixNode(matrix.number)` carrying the result connections. -/
  | matrixBranch (parentPath : List Nat) (number : Option Nat)
      (conns : List (Nat × ConResult))

/-- The whole server state touched by the dispatcher: the tree (a root
element whose children are the top-level elements), the live-clients set of
the listener, and the subscription registry mapping paths to subscriber
sets.  Clients are identified by numbers; JavaScript `Set`s are modelled as
insertion-ordered duplicate-free lists. -/
structure ServerState where
  tree : Element
  clients : List Nat
  subscribers : List (List Nat × List Nat)

/-- The result of running one handler: the state after it, the (possibly
mutated) target element, the events emitted, the responses sent directly to
the requesting client via `sendBERNode`, the responses queued to subscribers
via `queueMessage`, and the JavaScript exception that escaped, if any. -/
structure HandleResult where
  state : ServerState
  element : Option Element := none
  events : List Event := []
  sent : List (Nat × Response) := []
  queued : List (Nat × Response) := []
  err : Option ErrMsg := none
  /-- the matrix response root built by `handleMatrixConnections` (also
  recorded when an exception kept it from being sent). -/
  resRoot : Option Response := none

/-- JavaScript `Set.prototype.add`: no effect when present, append
otherwise. -/
def setAdd (s : List Nat) (c : Nat) : List Nat :=
  if c ∈ s then s else s ++ [c]

/-- TreeServer.prototype.subscribe: create the path's subscriber set on
demand, then add the client. -/
def subscribe (s : ServerState) (client : Nat) (e : Element) : ServerState :=
  let p := e.getPath
  match lookupAssoc s.subscribers p with
  | none => { s with subscribers := s.subscribers ++ [(p, [client])] }
  | some set => { s with subscribers := setAssoc s.subscribers p (setAdd set client) }

/-- TreeServer.prototype.unsubscribe: a missing path entry is a no-op,
otherwise delete the client from the set (`Set.prototype.delete`; sets hold
no duplicates, so deletion is a filter). -/
def unsubscribe (s : ServerState) (client : Nat) (e : Element) : ServerState :=
  let p := e.getPath
  match lookupAssoc s.subscribers p with
  | none => s
  | some set =>
      { s with subscribers := setAssoc s.subscribers p (set.filter (fun x => x ≠ client)) }

/-- The iteration of `updateSubscribers` over one subscriber set: skip the
origin (leaving it subscribed), queue the response to clients still in the
live set, and delete stale entries.  Returns the surviving set and the
queued deliveries, in iteration order. -/
def fanout (live : List Nat) (origin : Option Nat) (resp : Response) :
    List Nat → List Nat × List (Nat × Response)
  | [] => ([], [])
  | c :: rest =>
      let r := fanout live origin resp rest
      if origin = some c then (c :: r.1, r.2)
      else if c ∈ live then (c :: r.1, (c, resp) :: r.2)
      else r

/-- TreeServer.prototype.updateSubscribers: nothing happens for an
unregistered path; otherwise run the fan-out loop and store the surviving
subscriber set. -/
def updateSubscribers (s : ServerState) (path : List Nat) (resp : Response)
    (origin : Option Nat) : ServerState × List (Nat × Response) :=
  match lookupAssoc s.subscribers path with
  | none => (s, [])
  | some set =>
      let r := fanout s.clients origin resp set
      ({ s with subscribers := setAssoc s.subscribers path r.1 }, r.2)

/-- TreeServer.prototype.setValue (the body of the promise executor, which
runs synchronously): change a parameter's value when its access level
permits write (`access.value > 1`), emitting `value-change` with the prior
value; for a matrix, assign a dynamic contents key when it is owned.  The
`origin` argument is accepted and unused, as in the source. -/
def setValue (e : Element) (v : JSValue) (_origin : Option Nat)
    (key : Option String) : Element × Option Event :=
  match e.contents with
  | none => (e, none)
  | some c =>
      if e.isParameter then
        match c.access with
        | some a =>
            if a > 1 then
              let e2 := e.withContents (some { c with value := some v })
              (e2, some (.valueChange e2 c.value))
            else (e, none)
        | none => (e, none)
      else if e.isMatrix then
        match key with
        | some k =>
            if c.hasKey k then
              let e2 := e.withContents (some (c.setKey k v))
              (e2, some (.valueChange e2 none))
            else (e, none)
        | none => (e, none)
      else (e, none)

/-- TreeServer.prototype.getResponse: the target's tree branch with its
contents updated and children duplicated (response shaping form (a)). -/
def getResponse (e : Element) : Response :=
  .branchRes e.getPath e

/-- TreeServer.prototype.getQualifiedResponse: a root holding the target as
a qualified element with duplicated children (response shaping form (b)). -/
def getQualifiedResponse (e : Element) : Response :=
  .qualifiedRes e

/-- Modelled from the spec: `connectSources` — union the given sources into
the target's set (§4.4), keeping existing order and appending new ones. -/
def unionSources (old ns : List Nat) : List Nat :=
  ns.foldl (fun acc x => if x ∈ acc then acc else acc ++ [x]) old

/-- Modelled from the spec: `disconnectSources` — remove the given sources
from the target's set (§4.4). -/
def removeSources (old ns : List Nat) : List Nat :=
  old.filter (fun x => x ∉ ns)

/-- One iteration of the apply-changes block of `handleMatrixConnections`:
an omitted operation or `absolute` replaces the sources (`setSources`, event
`matrix-change`), `connect` unions them in (`connectSources`, event
`matrix-connect`) and anything else disconnects (`disconnectSources`, event
`matrix-disconnect`).  `setSources`/`connectSources`/`disconnectSources` are
modelled from the spec (§4.4). -/
def applyConnection (mc : MatrixConnection) (c : MatrixConnection) :
    MatrixConnection × MatrixEvType :=
  match c.operation with
  | none => ({ mc with sources := c.sources }, .change)
  | some .absolute => ({ mc with sources := c.sources }, .change)
  | some .connect =>
      ({ mc with sources := some (unionSources (mc.sources.getD []) (c.sources.getD [])) },
       .connect)
  | some .disconnect =>
      ({ mc with sources := some (removeSources (mc.sources.getD []) (c.sources.getD [])) },
       .disconnect)

/-- The `for(let id in connections)` loop of `handleMatrixConnections`,
threading the matrix's connection slots, the response-root connection
entries and the emitted events.  Accessing a target slot that is absent
(`matrix.connections[t]` undefined, then calling a method on it) raises a
TypeError that aborts the loop after the bare response entry was created:
mutations already applied stay applied, and the error propagates. -/
def processConnections (response : Bool) (client : Option Nat) :
    List MatrixConnection → List (Nat × MatrixConnection) →
    List (Nat × ConResult) → List Event →
    List (Nat × MatrixConnection) × List (Nat × ConResult) × List Event × Option ErrMsg
  | [], mconns, acc, evs => (mconns, acc, evs, none)
  | c :: rest, mconns, acc, evs =>
      match lookupAssoc mconns c.target with
      | none =>
          (mconns, setAssoc acc c.target { target := c.target }, evs,
           some .typeErrorUndefined)
      | some mc =>
          let a := applyConnection mc c
          let mconns2 := setAssoc mconns c.target a.1
          if response then
            let conResult : ConResult :=
              { target := c.target, sources := a.1.sources,
                disposition := some .modified }
            processConnections response client rest mconns2
              (setAssoc acc c.target conResult)
              (evs ++ [.matrixEv a.2 c.target c.sources client])
          else
            let conResult : ConResult :=
              { target := c.target, sources := a.1.sources,
                operation := some .absolute }
            processConnections response client rest mconns2
              (setAssoc acc c.target conResult) evs

/-- The response root built at the top of `handleMatrixConnections`: a
`QualifiedMatrix(matrix.path)` in a fresh root for a qualified matrix, and
otherwise a `MatrixNode(matrix.number)` wrapped in the parent's tree
branch. -/
def mkMatrixRoot (matrix : Element) (conns : List (Nat × ConResult)) : Response :=
  if matrix.isQualified then .matrixQualified matrix.path conns
  else .matrixBranch matrix.getPath.dropLast matrix.number conns

/-- TreeServer.prototype.handleMatrixConnections.  Runs the connection loop;
if it threw, neither the direct response nor the fan-out happens (the
response root had already been built but goes unsent, and mutations applied
before the throw persist).  Otherwise the root is sent to the client when
one is present, and `updateSubscribers` fans it out to the matrix path. -/
def handleMatrixConnections (client : Option Nat) (matrix : Element)
    (connections : List MatrixConnection) (response : Bool) (s : ServerState) :
    HandleResult :=
  let r := processConnections response client connections (matrix.connections.getD []) [] []
  let matrix2 :=
    match matrix.connections with
    | none => matrix
    | some _ => matrix.withConnections (some r.1)
  let root := mkMatrixRoot matrix r.2.1
  let s1 := { s with tree := updateElement s.tree matrix.getPath matrix2 }
  match r.2.2.2 with
  | some e =>
      { state := s1, element := some matrix2, events := r.2.2.1,
        err := some e, resRoot := some root }
  | none =>
      let u := updateSubscribers s1 matrix.getPath root client
      { state := u.1, element := some matrix2, events := r.2.2.1,
        sent := (match client with | some cl => [(cl, root)] | none => []),
        queued := u.2, resRoot := some root }

/-- validateMatrixOperation (server.js lines 288-304): the pre-mutation
checks guarding the server-side matrix API.  Each failing check throws (the
matrix-not-found message even references an undeclared `path` variable, so
in the source that throw is a ReferenceError; it is still a throw). -/
def validateMatrixOperation (matrix : Option Element) (target : Int)
    (sources : Option (List Nat)) : Option ErrMsg :=
  match matrix with
  | none => some .matrixNotFound
  | some m =>
      match m.contents with
      | none => some .matrixNoContents
      | some c =>
          match c.targetCount with
          | none => some .matrixNoTargetCount
          | some tc =>
              if target < 0 ∨ (tc : Int) ≤ target then some (.targetOutOfRange target)
              else
                match sources with
                | none => some .invalidSourcesFormat
                | some _ => none

/-- doMatrixOperation: resolve the matrix by path, validate, then hand a
single freshly built connection to `handleMatrixConnections` with no client
and `response = false`.  A sources value that is not a sequence is modelled
as `none` (the `sources.length === undefined` check).  After validation the
target is a non-negative integer below `targetCount`, hence the `toNat`. -/
def doMatrixOperation (s : ServerState) (path : List Nat) (target : Int)
    (sources : Option (List Nat)) (operation : MatrixOperation) : HandleResult :=
  let m? := getElementByPath s.tree path
  match validateMatrixOperation m? target sources with
  | some e => { state := s, err := some e }
  | none =>
      match m? with
      | some matrix =>
          let connection : MatrixConnection :=
            { target := target.toNat, sources := sources, operation := some operation }
          handleMatrixConnections none matrix [connection] false s
      | none => { state := s, err := some .matrixNotFound }

/-- TreeServer.prototype.matrixConnect. -/
def matrixConnect (s : ServerState) (path : List Nat) (target : Int)
    (sources : Option (List Nat)) : HandleResult :=
  doMatrixOperation s path target sources .connect

/-- TreeServer.prototype.matrixDisconnect. -/
def matrixDisconnect (s : ServerState) (path : List Nat) (target : Int)
    (sources : Option (List Nat)) : HandleResult :=
  doMatrixOperation s path target sources .disconnect

/-- TreeServer.prototype.matrixSet. -/
def matrixSet (s : ServerState) (path : List Nat) (target : Int)
    (sources : Option (List Nat)) : HandleResult :=
  doMatrixOperation s path target sources .absolute

/-- Modelled from the spec: the `GetDirectory` command constant of the
missing ember library (§6); only distinctness of the three constants is
used. -/
def GetDirectoryCmd : Nat := 32

/-- Modelled from the spec: the `Subscribe` command constant (§6). -/
def SubscribeCmd : Nat := 30

/-- Modelled from the spec: the `Unsubscribe` command constant (§6). -/
def UnsubscribeCmd : Nat := 31

/-- TreeServer.prototype.handleGetDirectory.  With no client nothing
happens.  A matrix or non-stream parameter target subscribes the client to
the target itself; otherwise every immediate child is subscribed (when the
children array is not null).  The response form follows
`client.request.path` (the request's `path` own-property, passed here as
`reqPath`). -/
def handleGetDirectory (client : Option Nat) (element : Element)
    (reqPath : Option (List Nat)) (s : ServerState) : HandleResult :=
  match client with
  | none => { state := s, element := some element }
  | some cl =>
      let s1 :=
        if (element.isMatrix || element.isParameter) && !element.isStream then
          subscribe s cl element
        else
          match element.getChildren with
          | none => s
          | some cs => cs.foldl (fun acc ch => subscribe acc cl ch) s
      let res := if reqPath.isNone then getResponse element else getQualifiedResponse element
      { state := s1, element := some element, sent := [(cl, res)] }

/-- TreeServer.prototype.handleSubscribe. -/
def handleSubscribe (client : Nat) (element : Element) (s : ServerState) : HandleResult :=
  { state := subscribe s client element, element := some element }

/-- TreeServer.prototype.handleUnSubscribe. -/
def handleUnSubscribe (client : Nat) (element : Element) (s : ServerState) : HandleResult :=
  { state := unsubscribe s client element, element := some element }

/-- TreeServer.prototype.handleCommand: dispatch on the command number, with
an `invalid command` error event for anything unrecognized. -/
def handleCommand (client : Nat) (element : Element) (cmd : Option Nat)
    (reqPath : Option (List Nat)) (s : ServerState) : HandleResult :=
  if cmd = some GetDirectoryCmd then handleGetDirectory (some client) element reqPath s
  else if cmd = some SubscribeCmd then handleSubscribe client element s
  else if cmd = some UnsubscribeCmd then handleUnSubscribe client element s
  else { state := s, element := some element, events := [.errorEv (.invalidCommand cmd)] }

/-- TreeServer.prototype.handleQualifiedParameter: when the request carries
a value, set it, send the qualified response to the client and fan it out to
the subscribers of the element's path with the client as origin.  A request
without contents makes the source read `parameter.contents.value` off
undefined, a TypeError. -/
def handleQualifiedParameter (client : Nat) (element : Element)
    (parameter : Element) (s : ServerState) : HandleResult :=
  match parameter.contents with
  | none => { state := s, element := some element, err := some .typeErrorUndefined }
  | some pc =>
      match pc.value with
      | none => { state := s, element := some element }
      | some v =>
          let r := setValue element v (some client) none
          let res := getQualifiedResponse r.1
          let s1 := { s with tree := updateElement s.tree r.1.getPath r.1 }
          let u := updateSubscribers s1 r.1.getPath res (some client)
          { state := u.1, element := some r.1, events := r.2.toList,
            sent := [(client, res)], queued := u.2 }

/-- TreeServer.prototype.handleQualifiedMatrix: delegate to
`handleMatrixConnections` with the request's connection entries. -/
def handleQualifiedMatrix (client : Nat) (element : Element) (matrix : Element)
    (s : ServerState) : HandleResult :=
  handleMatrixConnections (some client) element
    ((matrix.connections.getD []).map Prod.snd) true s

/-- The unqualified-to-qualified dispatch tail of `handleQualifiedNode`:
a `QualifiedMatrix` or `QualifiedParameter` request is handled, anything
else falls through with no action. -/
def handleQualifiedDispatch (client : Nat) (node : Element) (element : Element)
    (s : ServerState) : HandleResult :=
  match node.kind with
  | .matrix => handleQualifiedMatrix client element node s
  | .parameter => handleQualifiedParameter client element node s
  | _ => { state := s, element := some element }

/-- TreeServer.prototype.handleQualifiedNode: resolve the request's path; an
unknown path emits an error and answers with the minimal tree root; a single
Command child is dispatched as a command, otherwise the qualified request
itself is dispatched. -/
def handleQualifiedNode (client : Nat) (node : Element) (s : ServerState) : HandleResult :=
  let path := node.path.getD []
  match getElementByPath s.tree path with
  | none =>
      { state := s, events := [.errorEv (.unknownElement path)],
        sent := [(client, .minimalRoot)] }
  | some element =>
      match node.children with
      | some [c] =>
          match c.kind with
          | .command => handleCommand client element c.number node.path s
          | _ => handleQualifiedDispatch client node element s
      | _ => handleQualifiedDispatch client node element s

/-- The traversal loop of `handleNode` (server.js lines 153-170): follow the
first-child chain collecting numbers until a Command or a childless element
is reached; an element without a number aborts with the bare-string
`invalid request` error (`none` here). -/
def traverseNode : Element → List Nat → Option (List Nat × Element)
  | .mk num kind p cts cns ch dp, acc =>
      match num with
      | none => none
      | some n =>
          match kind with
          | .command => some (acc, .mk num kind p cts cns ch dp)
          | _ =>
              match ch with
              | none => some (acc ++ [n], .mk num kind p cts cns ch dp)
              | some [] => some (acc ++ [n], .mk num kind p cts cns ch dp)
              | some (c :: _cs) => traverseNode c (acc ++ [n])

/-- The parameter-set branch of `handleNode` (server.js lines 191-198): set
the value, send the tree-branch response and fan it out with the client as
origin. -/
def handleNodeSet (client : Nat) (element : Element) (v : JSValue)
    (s : ServerState) : HandleResult :=
  let r := setValue element v (some client) none
  let res := getResponse r.1
  let s1 := { s with tree := updateElement s.tree r.1.getPath r.1 }
  let u := updateSubscribers s1 r.1.getPath res (some client)
  { state := u.1, element := some r.1, events := r.2.toList,
    sent := [(client, res)], queued := u.2 }

/-- The invalid-request-format tail of `handleNode` (lines 199-203): emit
the error and answer with the target's tree branch via `handleError`. -/
def invalidFormat (client : Nat) (element : Element) (s : ServerState) : HandleResult :=
  { state := s, element := some element, events := [.errorEv .invalidRequestFormat],
    sent := [(client, .branchRes element.getPath element)] }

/-- TreeServer.prototype.handleNode: traverse the request, resolve the
collected path in the tree, then dispatch on what ended the traversal: a
command, a matrix with connections, a parameter carrying a value, or the
invalid-format fallback. -/
def handleNode (client : Nat) (node : Element) (s : ServerState) : HandleResult :=
  match traverseNode node [] with
  | none => { state := s, events := [.errorEv .invalidRequestStr] }
  | some (path, cmd) =>
      match getElementByPath s.tree path with
      | none =>
          { state := s, events := [.errorEv (.unknownElement path)],
            sent := [(client, .minimalRoot)] }
      | some element =>
          match cmd.kind with
          | .command => handleCommand client element cmd.number none s
          | .matrix =>
              if cmd.connections.isSome then
                handleMatrixConnections (some client) element
                  ((cmd.connections.getD []).map Prod.snd) true s
              else invalidFormat client element s
          | .parameter =>
              match cmd.contents with
              | some cc =>
                  match cc.value with
                  | some v => handleNodeSet client element v s
                  | none => invalidFormat client element s
              | none => invalidFormat client element s
          | .node => invalidFormat client element s

/-- A decoded message root: its `elements` array may be missing entirely. -/
structure RootMsg where
  elements : Option (List Element)

/-- The comparison `root.elements < 1` of `handleRoot`, under JavaScript
coercion: the array converts to a primitive string, so `[]` becomes `""`
then `0`, making the comparison true, while any non-empty array of decoded
element objects becomes a non-numeric string, hence `NaN`, making the
comparison false — even when the array holds more than one element. -/
def jsArrayLtOne (els : List Element) : Bool :=
  els.isEmpty

/-- TreeServer.prototype.handleRoot: a missing root, missing elements array
or an elements array comparing below 1 emits `invalid request` and returns
without sending anything; otherwise the first element is dispatched by
shape: qualified, command-on-root, or plain node. -/
def handleRoot (client : Nat) (root : Option RootMsg) (s : ServerState) : HandleResult :=
  match root with
  | none => { state := s, events := [.errorEv .invalidRequest] }
  | some r =>
      match r.elements with
      | none => { state := s, events := [.errorEv .invalidRequest] }
      | some els =>
          if jsArrayLtOne els then { state := s, events := [.errorEv .invalidRequest] }
          else
            match els with
            | [] => { state := s, events := [.errorEv .invalidRequest] }
            | node :: _ =>
                if node.path.isSome then handleQualifiedNode client node s
                else
                  match node.kind with
                  | .command => handleCommand client s.tree node.number node.path s
                  | _ => handleNode client node s

end EmberServer

namespace S101Queue

/-!
Embedding of the per-client work queue of `S101Client` (client.js):

```
S101Client.prototype.queueMessage = function (node) {
    this.addRequest(() => { self.sendBERNode(node); });
}
S101Client.prototype.makeRequest = function () {
    if (this.activeRequest === null && this.pendingRequests.length > 0) {
        this.activeRequest = this.pendingRequests.shift();
        this.activeRequest();
        this.activeRequest = null;
    }
};
S101Client.prototype.addRequest = function (cb) {
    this.pendingRequests.push(cb);
    this.makeRequest();
}
```

A work item is modelled by the list of items its callback itself hands to
`addRequest` while it runs (the dispatcher enqueues fan-out messages through
`queueMessage` during dispatch), plus an id for the execution log.  The
functions take a fuel argument that strictly decreases on every call; fuel
exhaustion returns the state unchanged and is irrelevant once the fuel
exceeds the bound appearing in the theorems, because a `makeRequest` nested
under a running item sees `activeRequest` set and returns immediately.
-/

/-- A unit of work: an id for the log and the items its execution enqueues
via nested `addRequest` calls, in order. -/
inductive WorkItem where
  | work (id : Nat) (enqueues : List WorkItem)

def WorkItem.id : WorkItem → Nat
  | .work i _ => i

def WorkItem.enqueues : WorkItem → List WorkItem
  | .work _ e => e

/-- The queue state of one client: the FIFO `pendingRequests`, the
single-slot `activeRequest` indicator (`true` models a non-null active
request), and a log of executed item ids in execution order. -/
structure QueueState where
  pendingRequests : List WorkItem
  activeRequest : Bool
  executed : List Nat

mutual

/-- S101Client.prototype.makeRequest: when no request is active and the
queue is non-empty, shift the oldest item, run it with the active slot
held, then clear the slot.  Note the pump does not loop: it runs at most
one item. -/
def makeRequest : Nat → QueueState → QueueState
  | 0, s => s
  | n + 1, s =>
      if s.activeRequest then s
      else
        match s.pendingRequests with
        | [] => s
        | it :: rest =>
            let s2 := runItem n { s with pendingRequests := rest, activeRequest := true } it
            { s2 with activeRequest := false }

/-- Execution of one item's callback: log the id, then perform its nested
`addRequest` calls in order. -/
def runItem : Nat → QueueState → WorkItem → QueueState
  | 0, s, _ => s
  | n + 1, s, .work i enqs =>
      addRequests n { s with executed := s.executed ++ [i] } enqs

/-- The successive nested `addRequest` calls an item performs. -/
def addRequests : Nat → QueueState → List WorkItem → QueueState
  | 0, s, _ => s
  | _ + 1, s, [] => s
  | n + 1, s, it :: rest => addRequests n (addRequest n s it) rest

/-- S101Client.prototype.addRequest: push the item, then pump. -/
def addRequest : Nat → QueueState → WorkItem → QueueState
  | 0, s, _ => s
  | n + 1, s, it =>
      makeRequest n { s with pendingRequests := s.pendingRequests ++ [it] }

end

end S101Queue

namespace EmberServer

/-- The claim's per-target update, written from the specification text
(§4.4): *absolute* replaces the target's source set with the given sources,
*connect* unions the given sources into the set, *disconnect* removes them,
and an omitted operation is treated as absolute.  This is the reference
against which the embedded connection loop is compared. -/
def claimApplyOp (existing given : Option (List Nat))
    (op : Option MatrixOperation) : Option (List Nat) :=
  match op with
  | some .connect => some (unionSources (existing.getD []) (given.getD []))
  | some .disconnect => some (removeSources (existing.getD []) (given.getD []))
  | _ => given

/-- The claim's per-target mutation step over the matrix's connection
slots: look the target up and store the updated source set. -/
def claimStep (mcs : List (Nat × MatrixConnection)) (c : MatrixConnection) :
    List (Nat × MatrixConnection) :=
  match lookupAssoc mcs c.target with
  | none => mcs
  | some mc =>
      setAssoc mcs c.target { mc with sources := claimApplyOp mc.sources c.sources c.operation }

/-- The claim's response contents: each touched target paired with its
resulting (post-mutation) source set and disposition `modified`, in request
order, with the mutations threaded through. -/
def claimResults : List (Nat × MatrixConnection) → List MatrixConnection →
    List (Nat × ConResult)
  | _, [] => []
  | mcs, c :: rest =>
      match lookupAssoc mcs c.target with
      | none => []
      | some mc =>
          let ns := claimApplyOp mc.sources c.sources c.operation
          (c.target,
            { target := c.target, sources := ns, disposition := some .modified }) ::
            claimResults (setAssoc mcs c.target { mc with sources := ns }) rest

/-- Is the client currently in the subscriber set registered for the
path? -/
def isSub (s : ServerState) (p : List Nat) (c : Nat) : Prop :=
  c ∈ (lookupAssoc s.subscribers p).getD []

/-- A bare tree root with no children, used as concrete sample data. -/
def sampleRootEl : Element :=
  .mk none .node none none none none []

/-- A decoded GetDirectory command element (sample data). -/
def sampleCmdGD : Element :=
  .mk (some GetDirectoryCmd) .command none none none none []

/-- A server state with an empty tree, no clients and no subscribers
(sample data). -/
def sampleState : ServerState :=
  ⟨sampleRootEl, [], []⟩

/-- A matrix element at path 3 with targetCount 2 and one connection slot,
target 0 currently fed by source 9 (sample data). -/
def sampleMatrix : Element :=
  .mk (some 3) .matrix none (some { targetCount := some 2 })
    (some [(0, ⟨0, some [9], none⟩)]) none [3]

/-- A tree holding `sampleMatrix` at path 3 (sample data). -/
def sampleMatrixTree : Element :=
  .mk none .node none none none (some [sampleMatrix]) []

/-- A server state around `sampleMatrixTree` with client 5 live and
subscribed to the matrix path (sample data). -/
def sampleMatrixState : ServerState :=
  ⟨sampleMatrixTree, [5], [([3], [5])]⟩

/-- A writable parameter at path 1, access readWrite (3), value 10
(sample data). -/
def sampleParam : Element :=
  .mk (some 1) .parameter none
    (some { value := some (.vint 10), access := some 3 }) none none [1]

/-- A read-only parameter at path 1, access read (1), value 10
(sample data). -/
def sampleParamRO : Element :=
  .mk (some 1) .parameter none
    (some { value := some (.vint 10), access := some 1 }) none none [1]

/-- A decoded qualified-parameter request for path 1 carrying value 42
(sample data). -/
def sampleParamReq : Element :=
  .mk none .parameter (some [1]) (some { value := some (.vint 42) }) none none []

/-- A server state with clients 5 and 9 live and both subscribed to path 1
(sample data). -/
def sampleSubState : ServerState :=
  ⟨sampleRootEl, [5, 9], [([1], [5, 9])]⟩

/-- A tree holding `sampleParam` at path 1 (sample data). -/
def sampleParamTree : Element :=
  .mk none .node none none none (some [sampleParam]) []

/-- A server state around `sampleParamTree` with clients 5 and 9 live and
both subscribed to path 1 (sample data). -/
def sampleParamState : ServerState :=
  ⟨sampleParamTree, [5, 9], [([1], [5, 9])]⟩

/-- An unqualified tree-branch parameter request: a childless parameter
numbered 1 carrying value 42 (sample data). -/
def sampleParamNodeReq : Element :=
  .mk (some 1) .parameter none (some { value := some (.vint 42) }) none none []

theorem lookupAssoc_setAssoc_self {κ α : Type} [DecidableEq κ] :
    ∀ (l : List (κ × α)) (k : κ) (v : α), lookupAssoc (setAssoc l k v) k = some v
  | [], k, v => by simp [setAssoc, lookupAssoc]
  | (k0, v0) :: rest, k, v => by
      by_cases h : k0 = k
      · simp [setAssoc, h, lookupAssoc]
      · simp [setAssoc, h, lookupAssoc, lookupAssoc_setAssoc_self rest k v]

theorem lookupAssoc_setAssoc_ne {κ α : Type} [DecidableEq κ] :
    ∀ (l : List (κ × α)) (k k2 : κ) (v : α), k2 ≠ k →
      lookupAssoc (setAssoc l k v) k2 = lookupAssoc l k2
  | [], k, k2, v, h => by simp [setAssoc, lookupAssoc, Ne.symm h]
  | (k0, v0) :: rest, k, k2, v, h => by
      by_cases h0 : k0 = k
      · subst h0
        simp [setAssoc, lookupAssoc, Ne.symm h]
      · simp only [setAssoc, if_neg h0, lookupAssoc]
        by_cases h2 : k0 = k2
        · simp [h2]
        · simp [h2, lookupAssoc_setAssoc_ne rest k k2 v h]

theorem lookupAssoc_append_none {κ α : Type} [DecidableEq κ] :
    ∀ (l l2 : List (κ × α)) (k : κ), lookupAssoc l k = none →
      lookupAssoc (l ++ l2) k = lookupAssoc l2 k
  | [], l2, k, _ => by simp
  | (k0, v0) :: rest, l2, k, h => by
      by_cases h0 : k0 = k
      · simp [lookupAssoc, h0] at h
      · simp only [lookupAssoc, if_neg h0] at h
        simpa [lookupAssoc, h0] using lookupAssoc_append_none rest l2 k h

theorem lookupAssoc_append_left {κ α : Type} [DecidableEq κ] :
    ∀ (l l2 : List (κ × α)) (k : κ) (v : α), lookupAssoc l k = some v →
      lookupAssoc (l ++ l2) k = some v
  | [], _, _, _, h => by simp [lookupAssoc] at h
  | (k0, v0) :: rest, l2, k, v, h => by
      by_cases h0 : k0 = k
      · simp_all [lookupAssoc]
      · simp only [lookupAssoc, if_neg h0] at h
        simpa [lookupAssoc, h0] using lookupAssoc_append_left rest l2 k v h

theorem setAssoc_eq_self {κ α : Type} [DecidableEq κ] :
    ∀ (l : List (κ × α)) (k : κ) (v : α), lookupAssoc l k = some v →
      setAssoc l k v = l
  | [], k, v, h => by simp [lookupAssoc] at h
  | (k0, v0) :: rest, k, v, h => by
      by_cases h0 : k0 = k
      · subst h0
        simp only [lookupAssoc, eq_self_iff_true, if_true, Option.some.injEq] at h
        subst h
        simp [setAssoc]
      · simp only [lookupAssoc, if_neg h0] at h
        simp [setAssoc, h0, setAssoc_eq_self rest k v h]

theorem setAssoc_of_not_mem {κ α : Type} [DecidableEq κ] :
    ∀ (l : List (κ × α)) (k : κ) (v : α), (∀ p ∈ l, p.1 ≠ k) →
      setAssoc l k v = l ++ [(k, v)]
  | [], k, v, _ => by simp [setAssoc]
  | (k0, v0) :: rest, k, v, h => by
      have hk0 : k0 ≠ k := h (k0, v0) (by simp)
      have hrest : ∀ p ∈ rest, p.1 ≠ k := fun p hp => h p (by simp [hp])
      simp [setAssoc, hk0, setAssoc_of_not_mem rest k v hrest]

theorem lookupAssoc_isSome_setAssoc {κ α : Type} [DecidableEq κ]
    (l : List (κ × α)) (k k2 : κ) (v : α)
    (h : (lookupAssoc l k2).isSome) : (lookupAssoc (setAssoc l k v) k2).isSome := by
  by_cases he : k2 = k
  · subst he
    simp [lookupAssoc_setAssoc_self]
  · rwa [lookupAssoc_setAssoc_ne l k k2 v he]

theorem fanout_fst (live : List Nat) (origin : Option Nat) (resp : Response) :
    ∀ set, (fanout live origin resp set).1 =
      set.filter (fun c => decide (origin = some c) || decide (c ∈ live))
  | [] => by simp [fanout]
  | c :: rest => by
      have ih := fanout_fst live origin resp rest
      by_cases h1 : origin = some c
      · rw [h1] at ih ⊢
        simp [fanout, ih, List.filter_cons]
      · by_cases h2 : c ∈ live
        · simp [fanout, h1, h2, ih, List.filter_cons]
        · simp [fanout, h1, h2, ih, List.filter_cons]

theorem fanout_snd (live : List Nat) (origin : Option Nat) (resp : Response) :
    ∀ set, (fanout live origin resp set).2 =
      (set.filter (fun c => !decide (origin = some c) && decide (c ∈ live))).map
        (fun c => (c, resp))
  | [] => by simp [fanout]
  | c :: rest => by
      have ih := fanout_snd live origin resp rest
      by_cases h1 : origin = some c
      · rw [h1] at ih ⊢
        simp [fanout, ih, List.filter_cons]
      · by_cases h2 : c ∈ live
        · simp [fanout, h1, h2, ih, List.filter_cons]
        · simp [fanout, h1, h2, ih, List.filter_cons]

theorem fanout_none_all_live (live : List Nat) (resp : Response)
    (set : List Nat) (h : ∀ c ∈ set, c ∈ live) :
    fanout live none resp set = (set, set.map (fun c => (c, resp))) := by
  have h1 := fanout_fst live none resp set
  have h2 := fanout_snd live none resp set
  have hf : set.filter
      (fun c => decide ((none : Option Nat) = some c) || decide (c ∈ live)) = set :=
    List.filter_eq_self.mpr (fun a ha => by simp [h a ha])
  have hg : set.filter
      (fun c => !decide ((none : Option Nat) = some c) && decide (c ∈ live)) = set :=
    List.filter_eq_self.mpr (fun a ha => by simp [h a ha])
  have hp1 : (fanout live none resp set).1 = set := by rw [h1, hf]
  have hp2 : (fanout live none resp set).2 = set.map (fun c => (c, resp)) := by
    rw [h2, hg]
  exact Prod.ext hp1 hp2

theorem fanout_origin_all_live (live : List Nat) (resp : Response) (o : Nat)
    (set : List Nat) (h : ∀ c ∈ set, c ∈ live) :
    fanout live (some o) resp set =
      (set, (set.filter (fun c => c ≠ o)).map (fun c => (c, resp))) := by
  have h1 := fanout_fst live (some o) resp set
  have h2 := fanout_snd live (some o) resp set
  have hf : set.filter
      (fun c => decide (some o = some c) || decide (c ∈ live)) = set :=
    List.filter_eq_self.mpr (fun a ha => by simp [h a ha])
  have hg : set.filter (fun c => !decide (some o = some c) && decide (c ∈ live)) =
      set.filter (fun c => c ≠ o) := by
    apply List.filter_congr
    intro a ha
    by_cases hao : o = a
    · simp [hao, h a ha]
    · have haon : a ≠ o := fun hh => hao hh.symm
      simp [hao, h a ha, haon]
  have hp1 : (fanout live (some o) resp set).1 = set := by rw [h1, hf]
  have hp2 : (fanout live (some o) resp set).2 =
      (set.filter (fun c => c ≠ o)).map (fun c => (c, resp)) := by
    rw [h2, hg]
  exact Prod.ext hp1 hp2

theorem fanout_queued_mem (live : List Nat) (origin : Option Nat) (resp : Response)
    (set : List Nat) (c : Nat) (r2 : Response)
    (h : (c, r2) ∈ (fanout live origin resp set).2) : c ∈ set := by
  rw [fanout_snd] at h
  rcases List.mem_map.mp h with ⟨a, ha, hpair⟩
  cases hpair
  exact List.mem_of_mem_filter ha

theorem Element.getPath_withContents (e : Element) (c : Option Contents) :
    (e.withContents c).getPath = e.getPath := by
  cases e
  rfl

theorem Element.getPath_withConnections (e : Element)
    (cn : Option (List (Nat × MatrixConnection))) :
    (e.withConnections cn).getPath = e.getPath := by
  cases e
  rfl

theorem Element.connections_withConnections (e : Element)
    (cn : Option (List (Nat × MatrixConnection))) :
    (e.withConnections cn).connections = cn := by
  cases e
  rfl

theorem isSub_subscribe_self (s : ServerState) (cl : Nat) (e : Element) :
    isSub (subscribe s cl e) e.getPath cl := by
  unfold isSub subscribe
  cases hl : lookupAssoc s.subscribers e.getPath with
  | none =>
      simp only [hl]
      rw [lookupAssoc_append_none _ _ _ hl]
      simp [lookupAssoc]
  | some set =>
      simp only [hl]
      rw [lookupAssoc_setAssoc_self]
      by_cases hc : cl ∈ set <;> simp [setAdd, hc]

theorem isSub_subscribe_mono (s : ServerState) (cl : Nat) (e : Element)
    (q : List Nat) (c : Nat) (h : isSub s q c) : isSub (subscribe s cl e) q c := by
  unfold isSub at h ⊢
  unfold subscribe
  cases hq : lookupAssoc s.subscribers q with
  | none => simp [hq] at h
  | some sq =>
      cases hl : lookupAssoc s.subscribers e.getPath with
      | none =>
          simp only [hl]
          rw [lookupAssoc_append_left _ _ _ _ hq]
          simpa [hq] using h
      | some set =>
          simp only [hl]
          by_cases hpq : q = e.getPath
          · subst hpq
            rw [hq] at hl
            cases hl
            rw [lookupAssoc_setAssoc_self]
            rw [hq] at h
            simp only [Option.getD_some] at h ⊢
            by_cases hcl : cl ∈ sq
            · simpa [setAdd, hcl] using h
            · simp only [setAdd, if_neg hcl]
              exact List.mem_append_left _ h
          · rw [lookupAssoc_setAssoc_ne _ _ _ _ hpq, hq]
            simpa [hq] using h

theorem isSub_foldl_subscribe_mono (cl : Nat) :
    ∀ (cs : List Element) (s : ServerState) (q : List Nat) (c : Nat),
      isSub s q c → isSub (cs.foldl (fun acc ch => subscribe acc cl ch) s) q c
  | [], _, _, _, h => h
  | ch :: rest, s, q, c, h => by
      simp only [List.foldl_cons]
      exact isSub_foldl_subscribe_mono cl rest _ q c (isSub_subscribe_mono s cl ch q c h)

theorem isSub_foldl_subscribe (cl : Nat) :
    ∀ (cs : List Element) (s : ServerState), ∀ ch ∈ cs,
      isSub (cs.foldl (fun acc c2 => subscribe acc cl c2) s) ch.getPath cl
  | [], _, ch, hch => by simp at hch
  | c2 :: rest, s, ch, hch => by
      simp only [List.foldl_cons]
      rcases List.mem_cons.mp hch with h | h
      · subst h
        exact isSub_foldl_subscribe_mono cl rest _ _ _ (isSub_subscribe_self s cl ch)
      · exact isSub_foldl_subscribe cl rest _ ch h

/-- Shorthand for the root-level `invalid request` error event. -/
def invalidRootEvent : Event :=
  .errorEv .invalidRequest

theorem setValue_event_shape (e : Element) (v : JSValue) (o : Option Nat)
    (k : Option String) :
    ∀ ev ∈ (setValue e v o k).2.toList, ∃ el p, ev = Event.valueChange el p := by
  unfold setValue
  repeat' split
  all_goals intro ev hev
  all_goals simp at hev
  all_goals exact ⟨_, _, hev⟩

theorem setValue_events_ne (e : Element) (v : JSValue) (o : Option Nat)
    (k : Option String) :
    ∀ ev ∈ (setValue e v o k).2.toList, ev ≠ invalidRootEvent := by
  intro ev hev
  rcases setValue_event_shape e v o k ev hev with ⟨el, p, rfl⟩
  simp [invalidRootEvent]

theorem processConnections_events_ne (client : Option Nat) :
    ∀ (response : Bool) (reqs : List MatrixConnection)
      (mconns : List (Nat × MatrixConnection)) (acc : List (Nat × ConResult))
      (evs : List Event),
      (∀ ev ∈ evs, ev ≠ invalidRootEvent) →
      ∀ ev ∈ (processConnections response client reqs mconns acc evs).2.2.1,
        ev ≠ invalidRootEvent
  | response, [], mconns, acc, evs, h => by
      simpa [processConnections] using h
  | response, c :: rest, mconns, acc, evs, h => by
      simp only [processConnections]
      cases hl : lookupAssoc mconns c.target with
      | none => simpa using h
      | some mc =>
          cases response with
          | true =>
              simp only [if_true]
              refine processConnections_events_ne client true rest _ _ _ ?_
              intro ev hev
              rcases List.mem_append.mp hev with h2 | h2
              · exact h ev h2
              · simp at h2
                subst h2
                simp [invalidRootEvent]
          | false =>
              simp only [if_false]
              exact processConnections_events_ne client false rest _ _ _ h

theorem handleMatrixConnections_events_eq (client : Option Nat) (matrix : Element)
    (conns : List MatrixConnection) (response : Bool) (s : ServerState) :
    (handleMatrixConnections client matrix conns response s).events =
      (processConnections response client conns (matrix.connections.getD []) [] []).2.2.1 := by
  unfold handleMatrixConnections
  rcases h : (processConnections response client conns (matrix.connections.getD []) [] []).2.2.2
    with _ | e <;> simp [h]

theorem handleMatrixConnections_events_ne (client : Option Nat) (matrix : Element)
    (conns : List MatrixConnection) (response : Bool) (s : ServerState) :
    ∀ ev ∈ (handleMatrixConnections client matrix conns response s).events,
      ev ≠ invalidRootEvent := by
  rw [handleMatrixConnections_events_eq]
  exact processConnections_events_ne client response conns _ [] [] (by simp)

theorem handleGetDirectory_events (client : Option Nat) (element : Element)
    (reqPath : Option (List Nat)) (s : ServerState) :
    (handleGetDirectory client element reqPath s).events = [] := by
  cases client <;> simp [handleGetDirectory]

theorem handleCommand_events_ne (client : Nat) (element : Element) (cmd : Option Nat)
    (reqPath : Option (List Nat)) (s : ServerState) :
    ∀ ev ∈ (handleCommand client element cmd reqPath s).events,
      ev ≠ invalidRootEvent := by
  unfold handleCommand
  split_ifs with h1 h2 h3
  · rw [handleGetDirectory_events]
    simp
  · simp [handleSubscribe]
  · simp [handleUnSubscribe]
  · intro ev hev
    simp only [List.mem_singleton] at hev
    subst hev
    simp [invalidRootEvent]

theorem handleQualifiedParameter_events_ne (client : Nat) (element parameter : Element)
    (s : ServerState) :
    ∀ ev ∈ (handleQualifiedParameter client element parameter s).events,
      ev ≠ invalidRootEvent := by
  unfold handleQualifiedParameter
  split
  · simp
  · split
    · simp
    · exact setValue_events_ne element _ (some client) none

theorem handleNodeSet_events_ne (client : Nat) (element : Element) (v : JSValue)
    (s : ServerState) :
    ∀ ev ∈ (handleNodeSet client element v s).events, ev ≠ invalidRootEvent := by
  unfold handleNodeSet
  exact setValue_events_ne element v (some client) none

theorem invalidFormat_events_ne (client : Nat) (element : Element) (s : ServerState) :
    ∀ ev ∈ (invalidFormat client element s).events, ev ≠ invalidRootEvent := by
  intro ev hev
  simp only [invalidFormat, List.mem_singleton] at hev
  subst hev
  simp [invalidRootEvent]

theorem handleQualifiedDispatch_events_ne (client : Nat) (node element : Element)
    (s : ServerState) :
    ∀ ev ∈ (handleQualifiedDispatch client node element s).events,
      ev ≠ invalidRootEvent := by
  unfold handleQualifiedDispatch
  split
  · exact handleMatrixConnections_events_ne _ _ _ _ _
  · exact handleQualifiedParameter_events_ne _ _ _ _
  · simp

theorem handleQualifiedNode_events_ne (client : Nat) (node : Element) (s : ServerState) :
    ∀ ev ∈ (handleQualifiedNode client node s).events, ev ≠ invalidRootEvent := by
  intro ev hev
  simp only [handleQualifiedNode] at hev
  rcases hge : getElementByPath s.tree (node.path.getD []) with _ | el
  · simp only [hge] at hev
    simp at hev
    subst hev
    simp [invalidRootEvent]
  · simp only [hge] at hev
    repeat' split at hev
    all_goals first
      | exact handleCommand_events_ne _ _ _ _ _ ev hev
      | exact handleQualifiedDispatch_events_ne _ _ _ _ ev hev

theorem handleNode_events_ne (client : Nat) (node : Element) (s : ServerState) :
    ∀ ev ∈ (handleNode client node s).events, ev ≠ invalidRootEvent := by
  intro ev hev
  simp only [handleNode] at hev
  rcases htr : traverseNode node [] with _ | ⟨path, cmd⟩
  · simp only [htr] at hev
    simp at hev
    subst hev
    simp [invalidRootEvent]
  · simp only [htr] at hev
    rcases hge : getElementByPath s.tree path with _ | el
    · simp only [hge] at hev
      simp at hev
      subst hev
      simp [invalidRootEvent]
    · simp only [hge] at hev
      repeat' split at hev
      all_goals first
        | exact handleCommand_events_ne _ _ _ _ _ ev hev
        | exact handleMatrixConnections_events_ne _ _ _ _ _ ev hev
        | exact handleNodeSet_events_ne _ _ _ _ ev hev
        | exact invalidFormat_events_ne _ _ _ ev hev

/-- C1 (amended): when the root is missing, its elements array is missing,
or its elements array is empty, `handleRoot` emits the invalid-request error
and sends nothing to the client (no minimal tree root is sent, no dispatch
happens, the state is untouched); when the elements array holds one or more
elements no invalid-request error is emitted — in particular a root with
more than one element is not rejected, its first element is simply
dispatched. -/
theorem handleRoot_invalid_request_behaviour (client : Nat) (s : ServerState)
    (root : Option RootMsg) :
    ((root = none ∨ root = some ⟨none⟩ ∨ root = some ⟨some []⟩) →
      handleRoot client root s =
        { state := s, events := [Event.errorEv ErrMsg.invalidRequest] }) ∧
    (∀ r node rest, root = some r → r.elements = some (node :: rest) →
      ∀ ev ∈ (handleRoot client root s).events,
        ev ≠ Event.errorEv ErrMsg.invalidRequest) := by
  constructor
  · rintro (rfl | rfl | rfl) <;> rfl
  · intro r node rest h1 h2 ev hev
    subst h1
    simp only [handleRoot, h2, jsArrayLtOne, List.isEmpty_cons, Bool.false_eq_true,
      if_false] at hev
    have hne : ev ≠ invalidRootEvent := by
      split at hev
      · exact handleQualifiedNode_events_ne _ _ _ ev hev
      · split at hev
        all_goals first
          | exact handleCommand_events_ne _ _ _ _ _ ev hev
          | exact handleNode_events_ne _ _ _ ev hev
    simpa [invalidRootEvent] using hne

/-- C1 witness: the theorem applied to the empty-root and the
one-command-root concrete requests. -/
theorem handleRoot_invalid_request_behaviour_witness :
    (handleRoot 0 none sampleState =
      { state := sampleState, events := [Event.errorEv ErrMsg.invalidRequest] }) ∧
    (∀ ev ∈ (handleRoot 0 (some ⟨some [sampleCmdGD]⟩) sampleState).events,
      ev ≠ Event.errorEv ErrMsg.invalidRequest) :=
  ⟨(handleRoot_invalid_request_behaviour 0 sampleState none).1 (Or.inl rfl),
   fun ev hev =>
     (handleRoot_invalid_request_behaviour 0 sampleState
       (some ⟨some [sampleCmdGD]⟩)).2 ⟨some [sampleCmdGD]⟩ sampleCmdGD [] rfl rfl ev hev⟩

/-- C1 counterexample: with an empty elements array `handleRoot` emits the
invalid-request error but sends the client nothing at all — not the minimal
tree root the claim requires — and a root carrying two elements raises no
error whatsoever (its first element is dispatched normally: here the
GetDirectory response is the only message). -/
theorem handleRoot_claim_counterexample :
    ((handleRoot 0 (some ⟨some []⟩) sampleState).events =
        [Event.errorEv ErrMsg.invalidRequest] ∧
      (handleRoot 0 (some ⟨some []⟩) sampleState).sent = []) ∧
    (handleRoot 0 (some ⟨some [sampleCmdGD, sampleCmdGD]⟩) sampleState).events = [] := by
  exact ⟨⟨rfl, rfl⟩, rfl⟩

/-- C7 (amended): `update_subscribers(path, response, origin)` never queues a
delivery to the origin; it queues the response to every other subscribed
client still in the live set; and the surviving subscriber set keeps exactly
the origin and the live subscribers — so every subscribed client *other than
the origin* that is no longer live is deleted during the fan-out, while a
stale origin is skipped before the staleness check and therefore kept. -/
theorem updateSubscribers_fanout_characterization (s : ServerState) (path : List Nat)
    (resp : Response) (origin : Option Nat) (set : List Nat)
    (hs : lookupAssoc s.subscribers path = some set) :
    (∀ c, origin = some c → ∀ r2, (c, r2) ∉ (updateSubscribers s path resp origin).2) ∧
    (∀ c ∈ set, origin ≠ some c → c ∈ s.clients →
      (c, resp) ∈ (updateSubscribers s path resp origin).2) ∧
    lookupAssoc (updateSubscribers s path resp origin).1.subscribers path =
      some (set.filter (fun c => decide (origin = some c) || decide (c ∈ s.clients))) := by
  refine ⟨?_, ?_, ?_⟩
  · intro c hc r2 hmem
    subst hc
    simp only [updateSubscribers, hs] at hmem
    rw [fanout_snd] at hmem
    rcases List.mem_map.mp hmem with ⟨a, ha, hpair⟩
    have ha2 := List.of_mem_filter ha
    cases hpair
    simp at ha2
  · intro c hc ho hcl
    simp only [updateSubscribers, hs]
    rw [fanout_snd]
    refine List.mem_map.mpr ⟨c, List.mem_filter.mpr ⟨hc, ?_⟩, rfl⟩
    simp [hcl]
    exact ho
  · simp only [updateSubscribers, hs]
    rw [lookupAssoc_setAssoc_self, fanout_fst]

/-- C7 witness: the theorem applied at a state with live client 5 and dead
client 9 both subscribed to path 1, origin client 9. -/
theorem updateSubscribers_fanout_characterization_witness :
    (∀ c, (some 9 : Option Nat) = some c → ∀ r2,
      (c, r2) ∉ (updateSubscribers ⟨sampleRootEl, [5], [([1], [5, 9])]⟩ [1]
        Response.minimalRoot (some 9)).2) ∧
    (∀ c ∈ [5, 9], (some 9 : Option Nat) ≠ some c → c ∈ [5] →
      (c, Response.minimalRoot) ∈ (updateSubscribers ⟨sampleRootEl, [5], [([1], [5, 9])]⟩
        [1] Response.minimalRoot (some 9)).2) ∧
    lookupAssoc (updateSubscribers ⟨sampleRootEl, [5], [([1], [5, 9])]⟩ [1]
        Response.minimalRoot (some 9)).1.subscribers [1] =
      some ([5, 9].filter (fun c => decide ((some 9 : Option Nat) = some c) ||
        decide (c ∈ [5]))) :=
  updateSubscribers_fanout_characterization ⟨sampleRootEl, [5], [([1], [5, 9])]⟩ [1]
    Response.minimalRoot (some 9) [5, 9] rfl

/-- C7 counterexample: client 7 is subscribed to path 1, the live set is
empty, and 7 is the origin of the fan-out; after `updateSubscribers` the
stale client 7 is still in the subscriber set, though the claim requires
every subscribed client no longer in the live set to be deleted. -/
theorem updateSubscribers_stale_origin_kept :
    lookupAssoc (updateSubscribers ⟨sampleRootEl, [], [([1], [7])]⟩ [1]
        Response.minimalRoot (some 7)).1.subscribers [1] = some [7] ∧
    (⟨sampleRootEl, [], [([1], [7])]⟩ : ServerState).clients = [] :=
  ⟨rfl, rfl⟩

theorem unsubscribe_subscribe_lookup (s : ServerState) (client : Nat) (e : Element) :
    ∃ set2,
      lookupAssoc (unsubscribe (subscribe s client e) client e).subscribers e.getPath =
        some set2 ∧ client ∉ set2 := by
  unfold subscribe unsubscribe
  cases hl : lookupAssoc s.subscribers e.getPath with
  | none =>
      simp only [hl]
      have h2 : lookupAssoc (s.subscribers ++ [(e.getPath, [client])]) e.getPath =
          some [client] := by
        rw [lookupAssoc_append_none _ _ _ hl]
        simp [lookupAssoc]
      simp only [h2]
      refine ⟨[], ?_, by simp⟩
      rw [lookupAssoc_setAssoc_self]
      simp [List.filter]
  | some set =>
      simp only [hl]
      have h2 : lookupAssoc (setAssoc s.subscribers e.getPath (setAdd set client))
          e.getPath = some (setAdd set client) := lookupAssoc_setAssoc_self _ _ _
      simp only [h2]
      refine ⟨(setAdd set client).filter (fun x => x ≠ client), ?_, ?_⟩
      · rw [lookupAssoc_setAssoc_self]
      · intro hmem
        have := List.of_mem_filter hmem
        simp at this

/-- C9: unsubscribe is a no-op when the path has no registry entry or when
the client is not in the path's subscriber set; and after subscribe followed
by unsubscribe the client is no longer a subscriber of the path, so no
fan-out over that path can queue it a message. -/
theorem unsubscribe_roundtrip (s : ServerState) (client : Nat) (e : Element) :
    (lookupAssoc s.subscribers e.getPath = none → unsubscribe s client e = s) ∧
    (∀ set, lookupAssoc s.subscribers e.getPath = some set → client ∉ set →
      unsubscribe s client e = s) ∧
    ¬ isSub (unsubscribe (subscribe s client e) client e) e.getPath client ∧
    (∀ resp origin r2,
      (client, r2) ∉
        (updateSubscribers (unsubscribe (subscribe s client e) client e)
          e.getPath resp origin).2) := by
  obtain ⟨set2, hset2, hnot⟩ := unsubscribe_subscribe_lookup s client e
  refine ⟨?_, ?_, ?_, ?_⟩
  · intro h
    simp [unsubscribe, h]
  · intro set h hcl
    simp only [unsubscribe, h]
    have hf : set.filter (fun x => x ≠ client) = set :=
      List.filter_eq_self.mpr (fun a ha => by
        simp only [decide_eq_true_eq]
        intro hac
        subst hac
        exact hcl ha)
    rw [hf, setAssoc_eq_self _ _ _ h]
  · intro hsub
    unfold isSub at hsub
    rw [hset2] at hsub
    exact hnot (by simpa using hsub)
  · intro resp origin r2 hmem
    simp only [updateSubscribers, hset2] at hmem
    exact hnot (fanout_queued_mem _ _ _ _ _ _ hmem)

/-- C9 witness: the theorem applied to client 5 and the parameter at path 1
in a state where path 1 has no registry entry. -/
theorem unsubscribe_roundtrip_witness :
    unsubscribe sampleState 5 sampleParam = sampleState ∧
    ¬ isSub (unsubscribe (subscribe sampleState 5 sampleParam) 5 sampleParam)
        sampleParam.getPath 5 :=
  ⟨(unsubscribe_roundtrip sampleState 5 sampleParam).1 rfl,
   (unsubscribe_roundtrip sampleState 5 sampleParam).2.2.1⟩

end EmberServer

namespace S101Queue

theorem makeRequest_active (n : Nat) (s : QueueState) (h : s.activeRequest = true) :
    makeRequest n s = s := by
  cases n with
  | zero => rfl
  | succ m => simp [makeRequest, h]

theorem addRequest_active (n : Nat) (s : QueueState) (it : WorkItem)
    (h : s.activeRequest = true) :
    addRequest (n + 1) s it = { s with pendingRequests := s.pendingRequests ++ [it] } := by
  simp only [addRequest]
  exact makeRequest_active n _ h

theorem addRequests_active :
    ∀ (its : List WorkItem) (n : Nat) (s : QueueState), s.activeRequest = true →
      2 * its.length ≤ n →
      addRequests n s its = { s with pendingRequests := s.pendingRequests ++ its }
  | [], n, s, _, _ => by cases n <;> simp [addRequests]
  | it :: rest, n, s, h, hn => by
      simp only [List.length_cons] at hn
      match n, hn with
      | Nat.succ (Nat.succ m2), _ =>
          simp only [addRequests]
          rw [addRequest_active m2 s it h]
          rw [addRequests_active rest (m2 + 1)
            { s with pendingRequests := s.pendingRequests ++ [it] } h (by omega)]
          simp

theorem runItem_active (n : Nat) (s : QueueState) (i : Nat) (enqs : List WorkItem)
    (h : s.activeRequest = true) (hn : 2 * enqs.length + 1 ≤ n) :
    runItem n s (.work i enqs) =
      { s with executed := s.executed ++ [i],
               pendingRequests := s.pendingRequests ++ enqs } := by
  match n, hn with
  | Nat.succ m, _ =>
      simp only [runItem]
      rw [addRequests_active enqs m { s with executed := s.executed ++ [i] } h (by omega)]

/-- C3 (amended): `add_request` appends the item and pumps once.  With no
request active, the oldest pending item (the head of the queue after the
append) is shifted and executed to completion: its id is logged, the items
it enqueues during execution are appended to the pending queue in enqueue
order, and none of them is executed by this call — the pump runs at most one
item, so work enqueued during dispatch (e.g. fan-out messages through
`queue_message`) waits for a later `add_request`.  With a request active the
call only appends. -/
theorem addRequest_pump (n : Nat) (s : QueueState) (it : WorkItem) :
    (s.activeRequest = false →
      ∀ (i : Nat) (enqs : List WorkItem) (rest : List WorkItem),
        s.pendingRequests ++ [it] = WorkItem.work i enqs :: rest →
        2 * enqs.length + 3 ≤ n →
        addRequest n s it =
          { pendingRequests := rest ++ enqs, activeRequest := false,
            executed := s.executed ++ [i] }) ∧
    (s.activeRequest = true → 1 ≤ n →
      addRequest n s it = { s with pendingRequests := s.pendingRequests ++ [it] }) := by
  constructor
  · intro hf i enqs rest hsplit hn
    match n, hn with
    | Nat.succ (Nat.succ n2), _ =>
        simp only [addRequest, makeRequest, hf, hsplit]
        rw [runItem_active n2 _ i enqs rfl (by omega)]
        simp
  · intro ht hn
    match n, hn with
    | Nat.succ m, _ => exact addRequest_active m s it ht

/-- C3 witness: the theorem applied to an idle empty queue receiving an item
that enqueues one message during execution, and to a busy queue. -/
theorem addRequest_pump_witness :
    addRequest 9 ⟨[], false, []⟩ (.work 0 [.work 1 []]) =
      { pendingRequests := [.work 1 []], activeRequest := false, executed := [0] } ∧
    addRequest 9 ⟨[], true, []⟩ (.work 2 []) =
      { pendingRequests := [.work 2 []], activeRequest := true, executed := [] } :=
  ⟨(addRequest_pump 9 ⟨[], false, []⟩ (.work 0 [.work 1 []])).1 rfl 0 [.work 1 []] []
      rfl (by simp),
   (addRequest_pump 9 ⟨[], true, []⟩ (.work 2 [])).2 rfl (by simp)⟩

/-- C3 counterexample: starting from an idle empty queue, `add_request` of an
item that itself enqueues item 1 during execution (as `queue_message` does
during dispatch) returns with only item 0 executed, no request active, and
item 1 still sitting in the pending queue — and since the pump only runs
inside `add_request`, nothing will ever execute it unless a further request
arrives, contradicting the claim that every enqueued item is eventually
executed. -/
theorem addRequest_item_stranded :
    (addRequest 9 ⟨[], false, []⟩ (.work 0 [.work 1 []])).executed = [0] ∧
    (addRequest 9 ⟨[], false, []⟩ (.work 0 [.work 1 []])).pendingRequests.length = 1 ∧
    (addRequest 9 ⟨[], false, []⟩ (.work 0 [.work 1 []])).activeRequest = false :=
  ⟨rfl, rfl, rfl⟩

end S101Queue

namespace EmberServer

theorem Element.isStream_of_isMatrix (e : Element) (h : e.isMatrix = true) :
    e.isStream = false := by
  cases e with
  | mk num kind p cts cns ch dp =>
      cases kind <;> simp_all [Element.isMatrix, Element.isStream, Element.kind,
        Element.contents]

/-- C8: for a GetDirectory command, a matrix target or a parameter target
without a stream identifier gets the requesting client subscribed to the
target's own path; otherwise the client is subscribed to the path of each
immediate child of the target. -/
theorem handleGetDirectory_subscriptions (client : Nat) (element : Element)
    (reqPath : Option (List Nat)) (s : ServerState) :
    ((element.isMatrix = true ∨ (element.isParameter = true ∧ element.isStream = false)) →
      isSub (handleGetDirectory (some client) element reqPath s).state
        element.getPath client) ∧
    ((element.isMatrix = false ∧ (element.isParameter = false ∨ element.isStream = true)) →
      ∀ ch ∈ (element.getChildren).getD [],
        isSub (handleGetDirectory (some client) element reqPath s).state
          ch.getPath client) := by
  constructor
  · intro hcond
    have hc : ((element.isMatrix || element.isParameter) && !element.isStream) = true := by
      rcases hcond with hm | ⟨hp, hs2⟩
      · simp [hm, Element.isStream_of_isMatrix element hm]
      · simp [hp, hs2]
    simp only [handleGetDirectory, hc, if_true]
    exact isSub_subscribe_self s client element
  · rintro ⟨hm, hrest⟩ ch hch
    have hc : ((element.isMatrix || element.isParameter) && !element.isStream) = false := by
      rcases hrest with hp | hs2
      · simp [hm, hp]
      · simp [hs2]
    simp only [handleGetDirectory, hc, Bool.false_eq_true, if_false]
    cases hch2 : element.getChildren with
    | none => simp [hch2] at hch
    | some cs =>
        simp only [hch2]
        rw [hch2] at hch
        exact isSub_foldl_subscribe client cs s ch (by simpa using hch)

/-- C8 witness: the theorem applied to the sample matrix (subscribing the
client to the matrix path itself) and to the bare root node (whose children
list is null, so there is nothing to subscribe). -/
theorem handleGetDirectory_subscriptions_witness :
    isSub (handleGetDirectory (some 4) sampleMatrix none sampleState).state
      sampleMatrix.getPath 4 ∧
    (∀ ch ∈ (sampleRootEl.getChildren).getD [],
      isSub (handleGetDirectory (some 4) sampleRootEl none sampleState).state
        ch.getPath 4) :=
  ⟨(handleGetDirectory_subscriptions 4 sampleMatrix none sampleState).1 (Or.inl rfl),
   (handleGetDirectory_subscriptions 4 sampleRootEl none sampleState).2
     ⟨rfl, Or.inl rfl⟩⟩

theorem applyConnection_fst (mc c : MatrixConnection) :
    (applyConnection mc c).1 =
      { mc with sources := claimApplyOp mc.sources c.sources c.operation } := by
  rcases hop : c.operation with _ | op
  · simp [applyConnection, claimApplyOp, hop]
  · cases op <;> simp [applyConnection, claimApplyOp, hop]

theorem processConnections_true_spec (client : Option Nat) :
    ∀ (reqs : List MatrixConnection) (mcs : List (Nat × MatrixConnection))
      (acc : List (Nat × ConResult)) (evs : List Event),
      (∀ c ∈ reqs, (lookupAssoc mcs c.target).isSome) →
      (∀ c ∈ reqs, ∀ p ∈ acc, p.1 ≠ c.target) →
      (reqs.map MatrixConnection.target).Nodup →
      ∃ evs2,
        processConnections true client reqs mcs acc evs =
          (reqs.foldl claimStep mcs, acc ++ claimResults mcs reqs, evs2, none)
  | [], mcs, acc, evs, _, _, _ => ⟨evs, by simp [processConnections, claimResults]⟩
  | c :: rest, mcs, acc, evs, hp, hacc, hnd => by
      obtain ⟨mc, hmc⟩ := Option.isSome_iff_exists.mp (hp c (by simp))
      have hns :
          (applyConnection mc c).1 =
            { mc with sources := claimApplyOp mc.sources c.sources c.operation } :=
        applyConnection_fst mc c
      have hfresh : ∀ p ∈ acc, p.1 ≠ c.target := hacc c (by simp)
      have hnd' : MatrixConnection.target c ∉ rest.map MatrixConnection.target ∧
          (rest.map MatrixConnection.target).Nodup := by
        rw [List.map_cons] at hnd
        exact List.nodup_cons.mp hnd
      have hnotin : c.target ∉ (rest.map MatrixConnection.target) := hnd'.1
      have hp2 : ∀ c2 ∈ rest,
          (lookupAssoc (setAssoc mcs c.target (applyConnection mc c).1) c2.target).isSome :=
        fun c2 hc2 =>
          lookupAssoc_isSome_setAssoc _ _ _ _ (hp c2 (by simp [hc2]))
      have hacc2 : ∀ c2 ∈ rest,
          ∀ p ∈ acc ++ [(c.target,
            ({ target := c.target, sources := (applyConnection mc c).1.sources,
               disposition := some .modified } : ConResult))], p.1 ≠ c2.target := by
        intro c2 hc2 p hpmem
        rcases List.mem_append.mp hpmem with hmem | hmem
        · exact hacc c2 (by simp [hc2]) p hmem
        · simp only [List.mem_singleton] at hmem
          subst hmem
          intro hpt
          have hpt2 : c.target = c2.target := hpt
          apply hnotin
          rw [hpt2]
          exact List.mem_map_of_mem MatrixConnection.target hc2
      have hnd2 : (rest.map MatrixConnection.target).Nodup := hnd'.2
      obtain ⟨evs2, hrec⟩ := processConnections_true_spec client rest
        (setAssoc mcs c.target (applyConnection mc c).1)
        (acc ++ [(c.target,
          ({ target := c.target, sources := (applyConnection mc c).1.sources,
             disposition := some .modified } : ConResult))])
        (evs ++ [.matrixEv (applyConnection mc c).2 c.target c.sources client])
        hp2 hacc2 hnd2
      refine ⟨evs2, ?_⟩
      simp only [processConnections, hmc, if_true]
      rw [setAssoc_of_not_mem acc c.target _ hfresh]
      rw [hrec]
      have hstep : claimStep mcs c = setAssoc mcs c.target (applyConnection mc c).1 := by
        simp [claimStep, hmc, hns]
      have hres : claimResults mcs (c :: rest) =
          (c.target,
            ({ target := c.target, sources := (applyConnection mc c).1.sources,
               disposition := some .modified } : ConResult)) ::
            claimResults (setAssoc mcs c.target (applyConnection mc c).1) rest := by
        simp only [claimResults, hmc]
        rw [hns]
      rw [hres, List.foldl_cons, hstep]
      simp

/-- C6: for a client matrix-connection request (the `response = true` path),
each entry applies its operation per target — absolute (or an omitted
operation) replaces the target's source set, connect unions the given
sources in, disconnect removes them — and the response root carries each
touched target with its resulting post-mutation source set and disposition
`modified`, and is sent to the requesting client.  `claimStep` /
`claimResults` are the reference semantics written from the claim's own
words. -/
theorem handleMatrixConnections_request_semantics (client : Nat) (s : ServerState)
    (matrix : Element) (mcs : List (Nat × MatrixConnection))
    (conns : List MatrixConnection)
    (hm : matrix.connections = some mcs)
    (hp : ∀ c ∈ conns, (lookupAssoc mcs c.target).isSome)
    (hnd : (conns.map MatrixConnection.target).Nodup) :
    (handleMatrixConnections (some client) matrix conns true s).err = none ∧
    (handleMatrixConnections (some client) matrix conns true s).element =
      some (matrix.withConnections (some (conns.foldl claimStep mcs))) ∧
    (handleMatrixConnections (some client) matrix conns true s).resRoot =
      some (mkMatrixRoot matrix (claimResults mcs conns)) ∧
    (handleMatrixConnections (some client) matrix conns true s).sent =
      [(client, mkMatrixRoot matrix (claimResults mcs conns))] := by
  obtain ⟨evs2, hproc⟩ := processConnections_true_spec (some client) conns mcs [] []
    hp (by simp) hnd
  simp only [handleMatrixConnections, hm, Option.getD_some, hproc]
  simp

/-- C6 witness: a connect request on target 0 of the sample matrix, turning
its source set from 9 into 9 then 1 appended. -/
theorem handleMatrixConnections_request_semantics_witness :
    (handleMatrixConnections (some 5) sampleMatrix [⟨0, some [1], some .connect⟩]
        true sampleMatrixState).err = none ∧
    (handleMatrixConnections (some 5) sampleMatrix [⟨0, some [1], some .connect⟩]
        true sampleMatrixState).element =
      some (sampleMatrix.withConnections
        (some ([⟨0, some [1], some .connect⟩].foldl claimStep
          [(0, ⟨0, some [9], none⟩)]))) ∧
    (handleMatrixConnections (some 5) sampleMatrix [⟨0, some [1], some .connect⟩]
        true sampleMatrixState).resRoot =
      some (mkMatrixRoot sampleMatrix
        (claimResults [(0, ⟨0, some [9], none⟩)] [⟨0, some [1], some .connect⟩])) ∧
    (handleMatrixConnections (some 5) sampleMatrix [⟨0, some [1], some .connect⟩]
        true sampleMatrixState).sent =
      [(5, mkMatrixRoot sampleMatrix
        (claimResults [(0, ⟨0, some [9], none⟩)] [⟨0, some [1], some .connect⟩]))] :=
  handleMatrixConnections_request_semantics 5 sampleMatrixState sampleMatrix
    [(0, ⟨0, some [9], none⟩)] [⟨0, some [1], some .connect⟩] rfl
    (by intro c hc; simp at hc; subst hc; rfl) (by simp)

/-- C2 (amended): only the server-side matrix API (`matrixConnect` /
`matrixDisconnect` / `matrixSet` via `doMatrixOperation`) runs
`validateMatrixOperation` before mutating; when any of its checks fails the
error is thrown before any mutation, the state is untouched and nothing is
sent or fanned out.  Client-originated matrix connection requests are not
validated at all: a request whose second entry names a target without a
connection slot throws a TypeError only when that slot is touched, after the
first entry's mutation has already been applied, and because the throw
aborts the handler no response is sent and no fan-out happens — but the
partial mutation persists. -/
theorem matrix_validation_scope (s : ServerState) :
    (∀ (path : List Nat) (target : Int) (sources : Option (List Nat))
        (op : MatrixOperation) (e : ErrMsg),
      validateMatrixOperation (getElementByPath s.tree path) target sources = some e →
      doMatrixOperation s path target sources op = { state := s, err := some e }) ∧
    (∀ (client : Nat) (matrix : Element) (mcs : List (Nat × MatrixConnection))
        (c1 c2 : MatrixConnection) (mc1 : MatrixConnection),
      matrix.connections = some mcs →
      lookupAssoc mcs c1.target = some mc1 →
      lookupAssoc mcs c2.target = none →
      (handleMatrixConnections (some client) matrix [c1, c2] true s).err =
          some ErrMsg.typeErrorUndefined ∧
        (handleMatrixConnections (some client) matrix [c1, c2] true s).element =
          some (matrix.withConnections
            (some (setAssoc mcs c1.target
              { mc1 with
                sources := claimApplyOp mc1.sources c1.sources c1.operation }))) ∧
        (handleMatrixConnections (some client) matrix [c1, c2] true s).sent = [] ∧
        (handleMatrixConnections (some client) matrix [c1, c2] true s).queued = []) := by
  constructor
  · intro path target sources op e hval
    simp only [doMatrixOperation, hval]
  · intro client matrix mcs c1 c2 mc1 hm hmc1 hmc2
    have hne : c2.target ≠ c1.target := by
      intro h
      rw [h, hmc1] at hmc2
      cases hmc2
    have hl2 : lookupAssoc (setAssoc mcs c1.target (applyConnection mc1 c1).1)
        c2.target = none := by
      rw [lookupAssoc_setAssoc_ne _ _ _ _ hne, hmc2]
    rw [applyConnection_fst] at hl2
    simp only [handleMatrixConnections, hm, Option.getD_some, processConnections,
      hmc1, if_true, applyConnection_fst, hl2]
    simp

/-- C2 witness: the theorem's API part applied to a path absent from the
sample tree (the matrix-not-found check fires before any mutation) and its
client part applied to the sample matrix with a valid first entry and an
out-of-range second entry. -/
theorem matrix_validation_scope_witness :
    doMatrixOperation sampleState [3] 0 (some [1]) MatrixOperation.connect =
      { state := sampleState, err := some ErrMsg.matrixNotFound } ∧
    (handleMatrixConnections (some 0) sampleMatrix
        [⟨0, some [1], none⟩, ⟨5, some [2], none⟩] true sampleState).err =
      some ErrMsg.typeErrorUndefined :=
  ⟨(matrix_validation_scope sampleState).1 [3] 0 (some [1]) MatrixOperation.connect
      ErrMsg.matrixNotFound rfl,
   ((matrix_validation_scope sampleState).2 0 sampleMatrix [(0, ⟨0, some [9], none⟩)]
      ⟨0, some [1], none⟩ ⟨5, some [2], none⟩ ⟨0, some [9], none⟩ rfl rfl rfl).1⟩

/-- C2 counterexample: the sample matrix has targetCount 2 and its target 0
connected to source 9; a client request pairing a valid entry for target 0
with the out-of-range target 5 raises an error, yet target 0's sources have
already been replaced by the request ([9] became [1]) — the matrix
connection state is not left unchanged as the claim requires — and no
response carries the failure to the client. -/
theorem matrix_client_request_mutates_despite_error :
    sampleMatrix.connections = some [(0, ⟨0, some [9], none⟩)] ∧
    (handleMatrixConnections (some 0) sampleMatrix
        [⟨0, some [1], none⟩, ⟨5, some [2], none⟩] true sampleState).err =
      some ErrMsg.typeErrorUndefined ∧
    (handleMatrixConnections (some 0) sampleMatrix
        [⟨0, some [1], none⟩, ⟨5, some [2], none⟩] true sampleState).element =
      some (sampleMatrix.withConnections (some [(0, ⟨0, some [1], none⟩)])) ∧
    (handleMatrixConnections (some 0) sampleMatrix
        [⟨0, some [1], none⟩, ⟨5, some [2], none⟩] true sampleState).sent = [] :=
  ⟨rfl, rfl, rfl, rfl⟩

/-- C10: a server-initiated matrix operation through the public API sends no
direct client response; the touched target's post-mutation source set,
tagged with operation `absolute`, is built into the response root, and that
root is queued to every subscriber of the matrix path with nobody excluded
(the origin passed to the fan-out is undefined). -/
theorem doMatrixOperation_api_semantics (s : ServerState) (path : List Nat)
    (target : Int) (srcs : List Nat) (matrix : Element) (ct : Contents) (tc : Nat)
    (mcs : List (Nat × MatrixConnection)) (mc : MatrixConnection) (set : List Nat)
    (hfind : getElementByPath s.tree path = some matrix)
    (hct : matrix.contents = some ct)
    (htc : ct.targetCount = some tc)
    (h0 : 0 ≤ target) (hlt : target < (tc : Int))
    (hmcs : matrix.connections = some mcs)
    (hlook : lookupAssoc mcs target.toNat = some mc)
    (hsubs : lookupAssoc s.subscribers matrix.getPath = some set)
    (hlive : ∀ c ∈ set, c ∈ s.clients) (op : MatrixOperation) :
    (matrixConnect s path target (some srcs) =
        doMatrixOperation s path target (some srcs) .connect ∧
      matrixDisconnect s path target (some srcs) =
        doMatrixOperation s path target (some srcs) .disconnect ∧
      matrixSet s path target (some srcs) =
        doMatrixOperation s path target (some srcs) .absolute) ∧
    ((doMatrixOperation s path target (some srcs) op).err = none ∧
      (doMatrixOperation s path target (some srcs) op).sent = [] ∧
      (doMatrixOperation s path target (some srcs) op).resRoot =
        some (mkMatrixRoot matrix
          [(target.toNat,
            { target := target.toNat,
              sources := claimApplyOp mc.sources (some srcs) (some op),
              operation := some .absolute })]) ∧
      (doMatrixOperation s path target (some srcs) op).queued =
        set.map (fun c => (c, mkMatrixRoot matrix
          [(target.toNat,
            { target := target.toNat,
              sources := claimApplyOp mc.sources (some srcs) (some op),
              operation := some .absolute })])) ∧
      (doMatrixOperation s path target (some srcs) op).element =
        some (matrix.withConnections (some (setAssoc mcs target.toNat
          { mc with sources := claimApplyOp mc.sources (some srcs) (some op) })))) := by
  have hval : validateMatrixOperation (some matrix) target (some srcs) = none := by
    have hrange : ¬(target < 0 ∨ (tc : Int) ≤ target) := by
      push_neg
      exact ⟨by omega, hlt⟩
    simp [validateMatrixOperation, hct, htc, hrange]
  refine ⟨⟨rfl, rfl, rfl⟩, ?_⟩
  simp only [doMatrixOperation, hfind, hval]
  simp only [handleMatrixConnections, hmcs, Option.getD_some, processConnections,
    hlook, Bool.false_eq_true, if_false]
  simp only [updateSubscribers]
  simp only [hsubs]
  rw [fanout_none_all_live s.clients _ set hlive]
  rw [applyConnection_fst]
  simp [setAssoc]

/-- C10 witness: `matrixConnect` on the sample matrix state, target 0 with
source 7: client 5, the only subscriber of the matrix path, is queued the
absolute-tagged result, and nothing is sent directly. -/
theorem doMatrixOperation_api_semantics_witness :
    (matrixConnect sampleMatrixState [3] 0 (some [7]) =
        doMatrixOperation sampleMatrixState [3] 0 (some [7]) .connect) ∧
    (doMatrixOperation sampleMatrixState [3] 0 (some [7]) .connect).sent = [] ∧
    (doMatrixOperation sampleMatrixState [3] 0 (some [7]) .connect).queued =
      [5].map (fun c => (c, mkMatrixRoot sampleMatrix
        [((0 : Int).toNat,
          { target := (0 : Int).toNat,
            sources := claimApplyOp (some [9]) (some [7]) (some .connect),
            operation := some .absolute })])) := by
  have h := doMatrixOperation_api_semantics sampleMatrixState [3] 0 [7] sampleMatrix
    { targetCount := some 2 } 2 [(0, ⟨0, some [9], none⟩)] ⟨0, some [9], none⟩ [5]
    rfl rfl rfl (by omega) (by omega) rfl rfl rfl (by decide) .connect
  exact ⟨h.1.1, h.2.2.1, h.2.2.2.2.1⟩

theorem Element.contents_withContents (e : Element) (c : Option Contents) :
    (e.withContents c).contents = c := by
  cases e
  rfl

theorem setValue_writable (element : Element) (ec : Contents) (a : Nat) (v : JSValue)
    (o : Option Nat) (hk : element.isParameter = true) (hc : element.contents = some ec)
    (ha : ec.access = some a) (hw : 1 < a) :
    setValue element v o none =
      (element.withContents (some { ec with value := some v }),
       some (.valueChange (element.withContents (some { ec with value := some v }))
         ec.value)) := by
  simp [setValue, hc, hk, ha, hw]

/-- C4: a parameter-set request on a parameter whose access level permits
write (access greater than read, i.e. `access.value > 1`) updates the value,
emits a `value-change` event carrying the element and the prior value, sends
the originating client a response holding the updated parameter in the form
of the request — qualified for a qualified request, tree-branch for a
tree-branch request (and `handleNode` routes a traversed parameter-carrying
request into that very branch) — and queues the same response to every live
subscriber of the parameter's path except the originator. -/
theorem parameter_set_request_semantics (client : Nat) (s : ServerState)
    (element preq node2 : Element) (ec pc : Contents) (a : Nat) (v : JSValue)
    (set : List Nat) (e2 : Element)
    (hk : element.isParameter = true)
    (hc : element.contents = some ec)
    (ha : ec.access = some a) (hw : 1 < a)
    (hpc : preq.contents = some pc) (hv : pc.value = some v)
    (hsubs : lookupAssoc s.subscribers element.getPath = some set)
    (hlive : ∀ c ∈ set, c ∈ s.clients)
    (he2 : e2 = element.withContents (some { ec with value := some v })) :
    ((handleQualifiedParameter client element preq s).element = some e2 ∧
      (handleQualifiedParameter client element preq s).events =
        [.valueChange e2 ec.value] ∧
      (handleQualifiedParameter client element preq s).sent =
        [(client, .qualifiedRes e2)] ∧
      (handleQualifiedParameter client element preq s).queued =
        (set.filter (fun c => c ≠ client)).map
          (fun c => (c, Response.qualifiedRes e2)) ∧
      e2.contents = some { ec with value := some v }) ∧
    ((handleNodeSet client element v s).element = some e2 ∧
      (handleNodeSet client element v s).events = [.valueChange e2 ec.value] ∧
      (handleNodeSet client element v s).sent =
        [(client, .branchRes element.getPath e2)] ∧
      (handleNodeSet client element v s).queued =
        (set.filter (fun c => c ≠ client)).map
          (fun c => (c, Response.branchRes element.getPath e2))) ∧
    (∀ (path2 : List Nat) (cmd : Element) (cc : Contents),
      traverseNode node2 [] = some (path2, cmd) →
      cmd.kind = EKind.parameter →
      cmd.contents = some cc → cc.value = some v →
      getElementByPath s.tree path2 = some element →
      handleNode client node2 s = handleNodeSet client element v s) := by
  subst he2
  have hsv := setValue_writable element ec a v (some client) hk hc ha hw
  refine ⟨?_, ?_, ?_⟩
  · simp only [handleQualifiedParameter, hpc, hv, hsv, getQualifiedResponse]
    simp only [updateSubscribers, Element.getPath_withContents, hsubs]
    rw [fanout_origin_all_live s.clients _ client set hlive]
    simp [Element.contents_withContents]
  · simp only [handleNodeSet, hsv, getResponse]
    simp only [updateSubscribers, Element.getPath_withContents, hsubs]
    rw [fanout_origin_all_live s.clients _ client set hlive]
    simp [Element.getPath_withContents]
  · intro path2 cmd cc htr hck hcc hccv hget
    simp only [handleNode, htr, hget, hck, hcc, hccv]

/-- C4 witness: client 9 writes value 42 to the readWrite parameter at path
1, with clients 5 and 9 subscribed to that path; the direct response goes to
client 9 only and the fan-out to client 5 only, and the tree-branch request
routes through the same set branch. -/
theorem parameter_set_request_semantics_witness :
    (handleQualifiedParameter 9 sampleParam sampleParamReq sampleParamState).sent =
      [(9, Response.qualifiedRes (sampleParam.withContents
        (some { value := some (JSValue.vint 42), access := some 3 })))] ∧
    (handleQualifiedParameter 9 sampleParam sampleParamReq sampleParamState).queued =
      ([5, 9].filter (fun c => c ≠ 9)).map
        (fun c => (c, Response.qualifiedRes (sampleParam.withContents
          (some { value := some (JSValue.vint 42), access := some 3 })))) ∧
    handleNode 9 sampleParamNodeReq sampleParamState =
      handleNodeSet 9 sampleParam (JSValue.vint 42) sampleParamState := by
  have T := parameter_set_request_semantics 9 sampleParamState sampleParam
    sampleParamReq sampleParamNodeReq
    { value := some (JSValue.vint 10), access := some 3 }
    { value := some (JSValue.vint 42) } 3 (JSValue.vint 42) [5, 9]
    (sampleParam.withContents (some { value := some (JSValue.vint 42), access := some 3 }))
    rfl rfl rfl (by omega) rfl rfl rfl (by decide) rfl
  exact ⟨T.1.2.2.1, T.1.2.2.2.1,
    T.2.2 [1] sampleParamNodeReq { value := some (JSValue.vint 42) } rfl rfl rfl rfl rfl⟩

/-- C5: a write attempt on a parameter whose access level does not permit
write (access absent or at most read) silently succeeds without effect:
`setValue` leaves the element untouched and emits no value-change event, and
both request pipelines raise no error and still answer the client with the
unchanged parameter. -/
theorem readonly_parameter_write_noop (element : Element) (ec : Contents) (v : JSValue)
    (hk : element.isParameter = true)
    (hc : element.contents = some ec)
    (ha : ∀ x, ec.access = some x → x ≤ 1) :
    (∀ o : Option Nat, setValue element v o none = (element, none)) ∧
    (∀ (client : Nat) (preq : Element) (pc : Contents) (s : ServerState),
      preq.contents = some pc → pc.value = some v →
      (handleQualifiedParameter client element preq s).element = some element ∧
      (handleQualifiedParameter client element preq s).events = [] ∧
      (handleQualifiedParameter client element preq s).err = none ∧
      (handleQualifiedParameter client element preq s).sent =
        [(client, Response.qualifiedRes element)]) ∧
    (∀ (client : Nat) (s : ServerState),
      (handleNodeSet client element v s).element = some element ∧
      (handleNodeSet client element v s).events = [] ∧
      (handleNodeSet client element v s).err = none ∧
      (handleNodeSet client element v s).sent =
        [(client, Response.branchRes element.getPath element)]) := by
  have hsv : ∀ o : Option Nat, setValue element v o none = (element, none) := by
    intro o
    cases hac : ec.access with
    | none => simp [setValue, hc, hk, hac]
    | some x =>
        have hx := ha x hac
        have hng : ¬ x > 1 := by omega
        simp [setValue, hc, hk, hac, hng]
  refine ⟨hsv, ?_, ?_⟩
  · intro client preq pc s hpc hv
    simp [handleQualifiedParameter, hpc, hv, hsv (some client), getQualifiedResponse]
  · intro client s
    simp [handleNodeSet, hsv (some client), getResponse]

/-- C5 witness: writing 42 to the read-only (`access = 1`) parameter at path
1 changes nothing, emits nothing and raises nothing, while the client still
receives the unchanged parameter. -/
theorem readonly_parameter_write_noop_witness :
    setValue sampleParamRO (JSValue.vint 42) (some 9) none = (sampleParamRO, none) ∧
    (handleQualifiedParameter 9 sampleParamRO sampleParamReq sampleState).events = [] ∧
    (handleQualifiedParameter 9 sampleParamRO sampleParamReq sampleState).sent =
      [(9, Response.qualifiedRes sampleParamRO)] := by
  have T := readonly_parameter_write_noop sampleParamRO
    { value := some (JSValue.vint 10), access := some 1 } (JSValue.vint 42)
    rfl rfl (by intro x hx; simp at hx; omega)
  exact ⟨T.1 (some 9),
    (T.2.1 9 sampleParamReq { value := some (JSValue.vint 42) } sampleState rfl rfl).2.1,
    (T.2.1 9 sampleParamReq { value := some (JSValue.vint 42) } sampleState rfl rfl).2.2.2⟩

end EmberServer
